import Mathlib

/-!
Shallow embedding of the award-collection pipeline of the corewell_health
repository (data_collection.py, data_collection_2.py, data_collection_3.py):
the paginated fetch loop, the retrying HTTP session, the multi-strategy
search planner of search_orgs, and the dedup/normalize step of to_df.
-/

/-- A JSON scalar cell value as it appears in an award record; `null` also
stands for a missing cell (pandas NaN). -/
inductive Jv where
  | null
  | str (s : String)
  | num (n : Int)
deriving DecidableEq

/-- A raw award record: an ordered field-name/value mapping (a Python dict). -/
abbrev RawAward := List (String × Jv)

/-- One entry of the response's serviceNotification array, with the two keys
fetch_all reads from it. -/
structure ServiceNote where
  notificationCode : String
  notificationMessage : String
deriving DecidableEq

/-- Outcome of one page request as seen by fetch_all after fetch_page: either a
transport-level failure (a requests exception, including raise_for_status), or
a parsed body with its award list and its service-notification list. -/
inductive FetchOutcome where
  | err
  | page (awards : List RawAward) (notes : List ServiceNote)
deriving DecidableEq

/-- An error ending a strategy's pagination: a transport failure raised by the
HTTP layer, or the RuntimeError fetch_all raises when the parsed response
carries service notifications (it joins the notification codes and messages). -/
inductive PagError where
  | transport
  | protocol (codes msgs : String)
deriving DecidableEq

/-- `", ".join(n.get("notificationCode","") for n in notes)` -/
def joinCodes (ns : List ServiceNote) : String :=
  String.intercalate ", " (ns.map (fun n => n.notificationCode))

/-- `"; ".join(n.get("notificationMessage","") for n in notes)` -/
def joinMsgs (ns : List ServiceNote) : String :=
  String.intercalate "; " (ns.map (fun n => n.notificationMessage))

/-- The last loop iteration the page ceiling allows: after this page is
appended the source's `pages >= max_pages` test breaks the loop whatever the
page length, so a clean nonempty page always ends the accumulation here. -/
def fetch_last (src : Nat → FetchOutcome) (offset : Nat) (acc : List RawAward) :
    Except PagError (List RawAward) :=
  match src offset with
  | .err => .error .transport
  | .page awards notes =>
    if notes ≠ [] then .error (.protocol (joinCodes notes) (joinMsgs notes))
    else if awards = [] then .ok acc
    else .ok (acc ++ awards)

/-- The while-loop of data_collection_2.fetch_all. `remaining` counts how many
pages the page ceiling still allows, i.e. `max_pages - pages`; the source test
`pages >= max_pages`, taken after `pages += 1`, is `remaining <= 1` here, so at
`remaining <= 1` the iteration is the last one. `src` maps an offset to that
page request's outcome. -/
def fetch_all_go (src : Nat → FetchOutcome) :
    Nat → Nat → List RawAward → Except PagError (List RawAward)
  | 0, offset, acc => fetch_last src offset acc
  | 1, offset, acc => fetch_last src offset acc
  | r + 2, offset, acc =>
    match src offset with
    | .err => .error .transport
    | .page awards notes =>
      if notes ≠ [] then .error (.protocol (joinCodes notes) (joinMsgs notes))
      else if awards = [] then .ok acc
      else if awards.length < 25 then .ok (acc ++ awards)
      else fetch_all_go src (r + 1) (offset + 25) (acc ++ awards)

/-- data_collection_2.fetch_all with its default page ceiling max_pages = 200:
paginate from offset 1, 25 results per page, offset advancing by 25. -/
def fetch_all (src : Nat → FetchOutcome) : Except PagError (List RawAward) :=
  fetch_all_go src 200 1 []

/-- The parsed body of one HTTP response: the award array and the
serviceNotification array of the JSON envelope. -/
structure ApiBody where
  award : List RawAward
  serviceNotification : List ServiceNote
deriving DecidableEq

/-- One HTTP attempt at the transport layer, before parsing: a
connection-level failure, or a status code together with the body. -/
inductive Attempt where
  | connFail
  | http (status : Nat) (body : ApiBody)

/-- The status_forcelist of data_collection_3.make_session's Retry. -/
def status_forcelist : List Nat := [429, 500, 502, 503, 504]

/-- A transport-layer failure surfaced by the session: retries exhausted
(urllib3 MaxRetryError), or a non-retryable HTTP error status raised by
fetch_page's raise_for_status. -/
inductive TransportFailure where
  | retriesExhausted
  | httpStatus (code : Nat)
deriving DecidableEq

/-- The retry loop of the session built by data_collection_3.make_session
(urllib3 Retry with total=5 and the forcelist above) combined with
raise_for_status: a connection failure or a forcelist status consumes one of
the `rem` remaining retries and moves to the next attempt; a status outside the
forcelist of at least 400 raises immediately; anything else returns the parsed
body. `attempts` maps the attempt index to its transport outcome. -/
def retry_go (attempts : Nat → Attempt) : Nat → Nat → Except TransportFailure ApiBody
  | 0, i =>
    match attempts i with
    | .connFail => .error .retriesExhausted
    | .http st body =>
      if st ∈ status_forcelist then .error .retriesExhausted
      else if 400 ≤ st then .error (.httpStatus st)
      else .ok body
  | rem + 1, i =>
    match attempts i with
    | .connFail => retry_go attempts rem (i + 1)
    | .http st body =>
      if st ∈ status_forcelist then retry_go attempts rem (i + 1)
      else if 400 ≤ st then .error (.httpStatus st)
      else .ok body

/-- One GET through the retrying session: at most five retries beyond the
first attempt (Retry total=5). -/
def session_get (attempts : Nat → Attempt) : Except TransportFailure ApiBody :=
  retry_go attempts 5 0

/-- The backoff slept before the k-th retry with backoff_factor 0.5:
0.5 * 2^(k-1) seconds. -/
def backoff_time (k : Nat) : ℚ :=
  (1 / 2) * 2 ^ (k - 1)

/-- The transport conditions the session retries: a connection-level failure
or a status in the forcelist. -/
def retryableAttempt (a : Attempt) : Prop :=
  a = .connFail ∨ ∃ st body, a = .http st body ∧ st ∈ status_forcelist

/-- data_collection_2.ORG_CANDIDATES, in source order. -/
def ORG_CANDIDATES : List String :=
  ["Corewell Health", "Spectrum Health", "Beaumont Health",
   "William Beaumont Hospital", "Helen DeVos Children\x27s Hospital",
   "Butterworth Hospital", "Lakeland Hospital", "Blodgett Hospital"]

/-- One concrete query-parameter dict passed to fetch_all by search_orgs; the
four shapes that occur in the source (`sd`/`ed` are the run's start_date and
end_date strings):
awardee = awardeeName with the dateStart/dateEnd window;
keywordQ = keyword with the dateStart/dateEnd window;
geo = awardeeStateCode plus keyword with the dateStart/dateEnd window;
awardeeStart = awardeeName with the startDateStart/startDateEnd window. -/
inductive Params where
  | awardee (org sd ed : String)
  | keywordQ (term sd ed : String)
  | geo (state kw sd ed : String)
  | awardeeStart (org sd ed : String)
deriving DecidableEq

/-- The f-string `f"\x22{org}\x22"`: the organization name in quotes. -/
def quoted (s : String) : String := "\"" ++ s ++ "\""

/-- The queries issued by phases 1-3 of data_collection_2.search_orgs, in
source order: exact awardeeName matches, then quoted and unquoted keyword
searches, then the Michigan sweep. -/
def queries123 (sd ed : String) : List Params :=
  ORG_CANDIDATES.map (fun org => Params.awardee org sd ed)
    ++ ORG_CANDIDATES.flatMap
        (fun org => [Params.keywordQ (quoted org) sd ed, Params.keywordQ org sd ed])
    ++ [Params.geo "MI" "Corewell OR Spectrum OR Beaumont" sd ed]

/-- The fallback queries of search_orgs: awardeeName bound to the award
start-date window. -/
def fallbackQueries (sd ed : String) : List Params :=
  ORG_CANDIDATES.map (fun org => Params.awardeeStart org sd ed)

/-- Runs `all_rows += fetch_all(q)` over a query list; the first exception
aborts the remaining queries as in the source, which has no per-query handler.
Besides the accumulated rows (or the propagated error), also returns the list
of queries actually issued. -/
def runQueries (fetch : Params → Except PagError (List RawAward)) :
    List Params → Except PagError (List RawAward) × List Params
  | [] => (.ok [], [])
  | p :: ps =>
    match fetch p with
    | .error e => (.error e, [p])
    | .ok rs =>
      let rest := runQueries fetch ps
      (rest.1.map (fun more => rs ++ more), p :: rest.2)

/-- data_collection_2.search_orgs over an abstract per-query fetcher: run
phases 1-3, then the fallback queries only when `all_rows` is still empty;
returns the rows (or the first error) and the queries actually issued. -/
def search_orgs (fetch : Params → Except PagError (List RawAward)) (sd ed : String) :
    Except PagError (List RawAward) × List Params :=
  let r1 := runQueries fetch (queries123 sd ed)
  match r1.1 with
  | .error e => (.error e, r1.2)
  | .ok rows =>
    if rows.isEmpty then
      let r2 := runQueries fetch (fallbackQueries sd ed)
      (r2.1.map (fun more => rows ++ more), r1.2 ++ r2.2)
    else (.ok rows, r1.2)

/-- fetch_all over the page source a query maps to. -/
def fetchVia (src : Params → Nat → FetchOutcome) (p : Params) :
    Except PagError (List RawAward) :=
  fetch_all (src p)

/-- Dict lookup of a field on a record. -/
def lookupField (r : RawAward) (c : String) : Option Jv :=
  (r.find? (fun p => p.1 == c)).map (fun p => p.2)

def keys (r : RawAward) : List String := r.map (fun p => p.1)

def insertKey (acc : List String) (c : String) : List String :=
  if c ∈ acc then acc else acc ++ [c]

/-- pandas DataFrame(rows).columns: the union of the rows' keys, in first-seen
order. -/
def schema (rows : List RawAward) : List String :=
  rows.foldl (fun acc r => (keys r).foldl insertKey acc) []

/-- The preferred output column order of data_collection_2.to_df. -/
def OUTPUT_COLS : List String :=
  ["id", "title", "awardeeName", "awardeeCity", "awardeeStateCode",
   "piFirstName", "piLastName", "date", "startDate", "expDate",
   "fundsObligatedAmt"]

/-- to_df's column selection `[c for c in [...] if c in df.columns]`; when no
preferred column occurs the frame is returned unchanged with its observed
columns (`df[cols] if cols else df`). -/
def outColumns (rows : List RawAward) : List String :=
  let cols := OUTPUT_COLS.filter (fun c => c ∈ schema rows)
  if cols.isEmpty then schema rows else cols

/-- A nonempty all-digit character run read as a decimal number. -/
def digitsToNat (ds : List Char) : Option Nat :=
  if ds ≠ [] ∧ ds.all Char.isDigit then
    some (ds.foldl (fun a c => 10 * a + (c.toNat - 48)) 0)
  else none

/-- An optionally signed integer literal, as accepted for the monetary field. -/
def parseInt (s : String) : Option Int :=
  match s.toList with
  | '-' :: rest => (digitsToNat rest).map (fun n => -(n : Int))
  | '+' :: rest => (digitsToNat rest).map (fun n => (n : Int))
  | ds => (digitsToNat ds).map (fun n => (n : Int))

/-- Models pandas.to_numeric with errors="coerce" on the cell values this
pipeline produces (integer-formatted strings, numbers, missing values):
numbers pass through, numeric strings parse to their value, anything else
becomes null (NaN); the coercion is a total function and never raises. -/
def to_numeric : Jv → Jv
  | .num n => .num n
  | .str s =>
    match parseInt s with
    | some n => .num n
    | none => .null
  | .null => .null

/-- The dedup key of drop_duplicates(subset=["id"]): the record's id cell. -/
def rowId (r : RawAward) : Option Jv := lookupField r "id"

/-- pandas drop_duplicates with subset=["id"] and the default keep="first":
keep a row only when its id has not been seen yet. -/
def drop_duplicates_go (seen : List (Option Jv)) : List RawAward → List RawAward
  | [] => []
  | r :: rs =>
    if rowId r ∈ seen then drop_duplicates_go seen rs
    else r :: drop_duplicates_go (rowId r :: seen) rs

def drop_duplicates (rows : List RawAward) : List RawAward :=
  drop_duplicates_go [] rows

/-- A record's cell in a given column; a missing cell is NaN (null). -/
def cellValue (r : RawAward) (c : String) : Jv := (lookupField r c).getD .null

/-- The value of an output column in a normalized row: the money column is
coerced by to_numeric, other columns pass through. -/
def normCell (r : RawAward) (c : String) : Jv :=
  if c = "fundsObligatedAmt" then to_numeric (cellValue r c) else cellValue r c

def normRow (cols : List String) (r : RawAward) : RawAward :=
  cols.map (fun c => (c, normCell r c))

/-- data_collection_2.to_df: an empty frame on no rows; otherwise dedup by id
(first occurrence wins), coerce the money column, select and order columns. -/
def to_df (rows : List RawAward) : List RawAward :=
  if rows.isEmpty then []
  else (drop_duplicates rows).map (fun r => normRow (outColumns rows) r)

/-- The user-visible outcome of data_collection_2's __main__: the HTTPError
handler, the RuntimeError handler, the explicit empty-result message, or the
printed table. -/
def mainOutcome (fetch : Params → Except PagError (List RawAward)) (sd ed : String) :
    String :=
  match (search_orgs fetch sd ed).1 with
  | .error .transport => "HTTP error"
  | .error (.protocol _ _) => "API reported an error"
  | .ok rows => if (to_df rows).isEmpty then "No NSF awards matched" else "table"

/-- Python truthiness of an optional string field. -/
def pyTruthy : Option String → Bool
  | none => false
  | some s => !s.isEmpty

/-- Tokenizer for Python str.split() with no argument: `cur` holds the
(reversed) characters of the token being read; whitespace ends a token, and
empty tokens are dropped. -/
def splitWsGo : List Char → List Char → List String
  | [], cur => if cur.isEmpty then [] else [String.mk cur.reverse]
  | c :: cs, cur =>
    if c.isWhitespace then
      (if cur.isEmpty then [] else [String.mk cur.reverse]) ++ splitWsGo cs []
    else splitWsGo cs (c :: cur)

/-- Python str.split() with no argument: split on whitespace runs, dropping
empty tokens. -/
def splitWs (s : String) : List String := splitWsGo s.toList []

/-- The PI-name derivation of data_collection_3.fetch_nsf_awards: when a
discrete name is missing and pdPIName is set, split pdPIName; with at least
two tokens, fill the missing first name with the first token and the missing
last name with the rest joined by single spaces. -/
def derive_pi_names (piFirst piLast pdPIName : Option String) :
    Option String × Option String :=
  if (!pyTruthy piFirst || !pyTruthy piLast) && pyTruthy pdPIName then
    match splitWs (pdPIName.getD "") with
    | p0 :: p1 :: rest =>
      (if pyTruthy piFirst then piFirst else some p0,
       if pyTruthy piLast then piLast else some (String.intercalate " " (p1 :: rest)))
    | _ => (piFirst, piLast)
  else (piFirst, piLast)

/-- The names bound at data_collection_3 module top level when __main__ runs
(imports, constants, functions), in definition order. -/
def dc3_module_names : List String :=
  ["os", "time", "datetime", "requests", "pd", "HTTPAdapter", "Retry",
   "BASE_URL", "HEADERS", "ORG_CANDIDATES", "YEARS_BACK", "today",
   "start_date", "end_date", "PRINT_FIELDS", "make_session", "SESSION",
   "fetch_page", "fetch_all", "_norm", "ORG_TOKENS", "fetch_nsf_awards"]

/-- The exceptions distinguished by data_collection_3's __main__ handlers. -/
inductive PyExc where
  | httpError
  | runtimeError
  | nameError (n : String)
  | other
deriving DecidableEq

/-- Evaluating an identifier: an undefined name raises NameError. -/
def evalName (env : List String) (n : String) : Except PyExc Unit :=
  if n ∈ env then .ok () else .error (.nameError n)

/-- The try block of data_collection_3's __main__: `rows = search_orgs()`
first evaluates the name search_orgs; only if that lookup succeeds does the
rest of the block run (abstracted as `rest`, paired with the number of network
requests it performs). -/
def dc3_try (rest : Except PyExc (List RawAward) × Nat) :
    Except PyExc (List RawAward) × Nat :=
  match evalName dc3_module_names "search_orgs" with
  | .error e => (.error e, 0)
  | .ok _ => rest

/-- The except clauses: HTTPError, then RuntimeError, then the generic
Exception handler; every handler rebinds df to an empty frame. -/
def dc3_handle : Except PyExc (List RawAward) → List RawAward × String
  | .ok df => (df, "ok")
  | .error .httpError => ([], "HTTP error")
  | .error .runtimeError => ([], "API reported an error")
  | .error _ => ([], "Unexpected error")

/-- The save step after the handlers: an empty frame writes no file and
reports nothing-to-save. -/
def dc3_save (df : List RawAward) : Bool × String :=
  if df.isEmpty then (false, "Nothing to save.") else (true, "saved")

/-- data_collection_3's __main__: try block, exception handlers, save step;
also surfaces the number of network calls performed. -/
def dc3_main (rest : Except PyExc (List RawAward) × Nat) :
    (List RawAward × String) × (Bool × String) × Nat :=
  let t := dc3_try rest
  let handled := dc3_handle t.1
  (handled, dc3_save handled.1, t.2)

/-- The awards a page source returns at the k-th offset the paginator visits,
offset 1 + 25k. -/
def awardsAt (src : Nat → FetchOutcome) (k : Nat) : List RawAward :=
  match src (1 + 25 * k) with
  | .page a _ => a
  | .err => []

/-- Page k parsed cleanly (no transport failure, no notifications) and was a
full page of 25. -/
def fullCleanAt (src : Nat → FetchOutcome) (k : Nat) : Prop :=
  src (1 + 25 * k) = .page (awardsAt src k) [] ∧ (awardsAt src k).length = 25

/-- Concatenation of the first n pages of a source, in offset order. -/
def joinUpTo (src : Nat → FetchOutcome) (n : Nat) : List RawAward :=
  ((List.range n).map (awardsAt src)).flatten

/-- A one-field award record used as concrete test data. -/
def demoRow : RawAward := [("id", Jv.num 1)]

/-- A source whose every page is a full page of 25 records. -/
def fullSrc : Nat → FetchOutcome := fun _ => FetchOutcome.page (List.replicate 25 demoRow) []

/-- A source whose first page is short: one record. -/
def shortSrc : Nat → FetchOutcome := fun _ => FetchOutcome.page [demoRow] []

/-- A source whose response parses but carries a service notification next to
an award. -/
def noteSrc : Nat → FetchOutcome :=
  fun _ => FetchOutcome.page [demoRow] [⟨"INFO", "scheduled maintenance"⟩]

/-- A per-query page source where the very first planned query (exact match on
Corewell Health) fails at the transport layer while every other awardeeName
query returns one award. -/
def cxSrc : Params → Nat → FetchOutcome := fun p _ =>
  match p with
  | .awardee org _ _ =>
    if org = "Corewell Health" then FetchOutcome.err else FetchOutcome.page [demoRow] []
  | _ => FetchOutcome.page [] []

/-- A fetcher for which every query succeeds with zero rows. -/
def emptyFetch : Params → Except PagError (List RawAward) := fun _ => .ok []

/-- A fetcher for which every query succeeds with one row. -/
def oneRowFetch : Params → Except PagError (List RawAward) := fun _ => .ok [demoRow]

/-- A parsed body holding one award and no notifications. -/
def body200 : ApiBody := ⟨[demoRow], []⟩

/-- A transport history that succeeds at once. -/
def okAttempts : Nat → Attempt := fun _ => Attempt.http 200 body200

/-- Two connection failures, then success. -/
def failTwiceAttempts : Nat → Attempt :=
  fun j => if j < 2 then Attempt.connFail else Attempt.http 200 body200

/-- Six retryable 503 failures, then success. -/
def failSixAttempts : Nat → Attempt :=
  fun j => if j < 6 then Attempt.http 503 body200 else Attempt.http 200 body200

/-- A non-retryable 404 on the first attempt. -/
def notFoundAttempts : Nat → Attempt := fun _ => Attempt.http 404 body200

/-- Concrete raw rows with a repeated identifier and a monetary string. -/
def dupRows : List RawAward :=
  [[("id", Jv.num 1), ("fundsObligatedAmt", Jv.str "150000")],
   [("id", Jv.num 1)], [("id", Jv.num 2)]]

/-- One run's rows: a single row carrying both observed fields. -/
def rowsA : List RawAward := [[("id", Jv.num 1), ("x", Jv.null)]]

/-- Another run's rows: the same observed field schema split over two rows. -/
def rowsB : List RawAward := [[("id", Jv.num 2)], [("x", Jv.str "y")]]

/-! ## Theorems -/

/-- C10: in the data_collection_3 variant every execution of __main__ raises a
NameError before any network call, because search_orgs (and to_df) are not
defined in that module; the generic handler absorbs it, the run ends with an
empty table, writes no file, and reports the nothing-to-save status. -/
theorem dc3_main_name_error (rest : Except PyExc (List RawAward) × Nat) :
    "search_orgs" ∉ dc3_module_names ∧ "to_df" ∉ dc3_module_names ∧
    dc3_try rest = (.error (.nameError "search_orgs"), 0) ∧
    dc3_main rest = (([], "Unexpected error"), (false, "Nothing to save."), 0) := by
  refine ⟨by decide, by decide, rfl, rfl⟩

/-- C8: monetary-field normalization never raises; "150000", 150000, "abc" and
None normalize to 150000, 150000, null, null; numeric strings and numbers are
coerced to the numeric value and everything else becomes null. -/
theorem money_coercion :
    to_numeric (.str "150000") = .num 150000 ∧
    to_numeric (.num 150000) = .num 150000 ∧
    to_numeric (.str "abc") = .null ∧
    to_numeric .null = .null ∧
    (∀ s n, parseInt s = some n → to_numeric (.str s) = .num n) ∧
    (∀ s, parseInt s = none → to_numeric (.str s) = .null) ∧
    (∀ v, (∃ n, to_numeric v = .num n) ∨ to_numeric v = .null) := by
  refine ⟨rfl, rfl, rfl, rfl, ?_, ?_, ?_⟩
  · intro s n h; simp [to_numeric, h]
  · intro s h; simp [to_numeric, h]
  · intro v
    cases v with
    | null => exact Or.inr rfl
    | num n => exact Or.inl ⟨n, rfl⟩
    | str s =>
      cases h : parseInt s with
      | some n => exact Or.inl ⟨n, by simp [to_numeric, h]⟩
      | none => exact Or.inr (by simp [to_numeric, h])

theorem money_coercion_witness :
    parseInt "7" = some 7 ∧ to_numeric (.str "7") = .num 7 ∧
    parseInt "x" = none ∧ to_numeric (.str "x") = .null :=
  ⟨rfl, money_coercion.2.2.2.2.1 "7" 7 rfl, rfl, money_coercion.2.2.2.2.2.1 "x" rfl⟩

/-- C7: with both discrete PI names absent, a combined name of at least two
space-separated tokens yields (first token, remaining tokens joined by
spaces); a single-token combined name leaves both derived names null. -/
theorem pi_name_derivation (s : String) :
    (∀ p0 p1 rest, splitWs s = p0 :: p1 :: rest →
      derive_pi_names none none (some s) =
        (some p0, some (String.intercalate " " (p1 :: rest)))) ∧
    ((splitWs s).length = 1 → derive_pi_names none none (some s) = (none, none)) := by
  constructor
  · intro p0 p1 rest h
    have hne : s.toList ≠ [] := by
      intro h0
      rw [splitWs, h0] at h
      simp [splitWsGo] at h
    have hs0 : s ≠ "" := by
      intro h0
      rw [h0] at hne
      exact hne rfl
    have ht : s.isEmpty = false := by
      rw [Bool.eq_false_iff]
      intro hempty
      exact hs0 ((String.isEmpty_iff s).mp hempty)
    simp [derive_pi_names, pyTruthy, ht, h]
  · intro h
    rcases hs : splitWs s with _ | ⟨p0, tl⟩
    · rw [hs] at h; simp at h
    · rcases tl with _ | ⟨p1, tl2⟩
      · simp only [derive_pi_names]
        split
        · simp only [Option.getD_some]
          rw [hs]
        · rfl
      · rw [hs] at h; simp at h

theorem pi_name_derivation_witness :
    splitWs "Jane Q. Doe" = ["Jane", "Q.", "Doe"] ∧
    derive_pi_names none none (some "Jane Q. Doe") = (some "Jane", some "Q. Doe") ∧
    (splitWs "Madonna").length = 1 ∧
    derive_pi_names none none (some "Madonna") = (none, none) :=
  ⟨rfl, (pi_name_derivation "Jane Q. Doe").1 "Jane" "Q." ["Doe"] rfl,
   rfl, (pi_name_derivation "Madonna").2 rfl⟩

/-- C9: two inputs observing the same field schema normalize to the same
columns in the same order, whatever strategies produced the surviving rows;
every output row carries exactly the selected columns. -/
theorem columns_deterministic (rows1 rows2 : List RawAward)
    (h : schema rows1 = schema rows2) :
    outColumns rows1 = outColumns rows2 ∧
    (∀ r ∈ to_df rows1, keys r = outColumns rows1) := by
  constructor
  · rw [outColumns, outColumns, h]
  · intro r hr
    cases he : rows1.isEmpty with
    | true => simp [to_df, he] at hr
    | false =>
      simp only [to_df, he, Bool.false_eq_true, if_false, List.mem_map] at hr
      obtain ⟨x, _, rfl⟩ := hr
      have hcomp : ((fun p : String × Jv => p.1) ∘ fun c => (c, normCell x c)) = id := rfl
      rw [keys, normRow, List.map_map, hcomp, List.map_id]

theorem columns_deterministic_witness :
    schema rowsA = schema rowsB ∧ outColumns rowsA = outColumns rowsB :=
  ⟨rfl, (columns_deterministic rowsA rowsB rfl).1⟩

/-- Outcome of the retry loop from attempt i with rem retries left, when the
first N attempts are retryable failures and attempt N succeeds: success
exactly when the budget covers the failures, exhaustion otherwise. -/
theorem retry_go_spec (attempts : Nat → Attempt) (body : ApiBody) :
    ∀ N i rem : Nat,
      (∀ j, j < N → retryableAttempt (attempts (i + j))) →
      attempts (i + N) = .http 200 body →
      (N ≤ rem → retry_go attempts rem i = .ok body) ∧
      (rem < N → retry_go attempts rem i = .error .retriesExhausted) := by
  intro N
  induction N with
  | zero =>
    intro i rem _ hs
    rw [Nat.add_zero] at hs
    constructor
    · intro _
      cases rem with
      | zero => rw [retry_go, hs]; simp [status_forcelist]
      | succ r => rw [retry_go, hs]; simp [status_forcelist]
    · intro h; omega
  | succ N ih =>
    intro i rem hr hs
    have h0 : retryableAttempt (attempts i) := by
      have := hr 0 (by omega)
      rwa [Nat.add_zero] at this
    have hshift : ∀ j, j < N → retryableAttempt (attempts (i + 1 + j)) := by
      intro j hj
      have := hr (j + 1) (by omega)
      rwa [show i + (j + 1) = i + 1 + j by omega] at this
    have hs' : attempts (i + 1 + N) = .http 200 body := by
      rwa [show i + 1 + N = i + (N + 1) by omega]
    have hstep : ∀ r, retry_go attempts (r + 1) i = retry_go attempts r (i + 1) := by
      intro r
      rcases h0 with hcf | ⟨st, b, hab, hstf⟩
      · rw [retry_go, hcf]
      · rw [retry_go, hab]
        simp [hstf]
    have hstep0 : retry_go attempts 0 i = .error .retriesExhausted := by
      rcases h0 with hcf | ⟨st, b, hab, hstf⟩
      · rw [retry_go, hcf]
      · rw [retry_go, hab]
        simp [hstf]
    constructor
    · intro hle
      obtain ⟨r, rfl⟩ : ∃ r, rem = r + 1 := ⟨rem - 1, by omega⟩
      rw [hstep r]
      exact (ih (i + 1) r hshift hs').1 (by omega)
    · intro hlt
      cases rem with
      | zero => exact hstep0
      | succ r =>
        rw [hstep r]
        exact (ih (i + 1) r hshift hs').2 (by omega)

/-- C5: with the configured bound of five retries, an injected sequence of N
retryable failures (connection-level or forcelist status 429/500/502/503/504)
followed by a success makes the wrapped fetch succeed when N is at most five
and fail with a transport failure when N exceeds five; a non-retryable 4xx
other than 429 propagates immediately, independently of later attempts; the
exponential backoff doubles the delay per retry. -/
theorem retry_bound_spec :
    (∀ (attempts : Nat → Attempt) (N : Nat) (body : ApiBody),
      (∀ j, j < N → retryableAttempt (attempts j)) →
      attempts N = .http 200 body →
      (N ≤ 5 → session_get attempts = .ok body) ∧
      (5 < N → session_get attempts = .error .retriesExhausted)) ∧
    (∀ (attempts attempts' : Nat → Attempt) (st : Nat) (body : ApiBody),
      400 ≤ st → st ∉ status_forcelist →
      attempts 0 = .http st body → attempts' 0 = attempts 0 →
      session_get attempts = .error (.httpStatus st) ∧
      session_get attempts' = .error (.httpStatus st)) ∧
    (∀ k, 1 ≤ k → backoff_time (k + 1) = 2 * backoff_time k) := by
  refine ⟨?_, ?_, ?_⟩
  · intro attempts N body hr hs
    have := retry_go_spec attempts body N 0 5 (by simpa using hr) (by simpa using hs)
    exact this
  · intro attempts attempts' st body h4 hnf h0 h0'
    have hone : ∀ f : Nat → Attempt, f 0 = .http st body →
        session_get f = .error (.httpStatus st) := by
      intro f hf
      rw [session_get, retry_go, hf]
      simp [hnf, h4]
    exact ⟨hone attempts h0, hone attempts' (h0'.trans h0)⟩
  · intro k hk
    obtain ⟨m, rfl⟩ : ∃ m, k = m + 1 := ⟨k - 1, by omega⟩
    simp only [backoff_time, Nat.add_sub_cancel]
    rw [pow_succ]
    ring

theorem retry_bound_spec_witness :
    (∀ j, j < 2 → retryableAttempt (failTwiceAttempts j)) ∧
    failTwiceAttempts 2 = .http 200 body200 ∧
    session_get failTwiceAttempts = .ok body200 ∧
    (∀ j, j < 6 → retryableAttempt (failSixAttempts j)) ∧
    failSixAttempts 6 = .http 200 body200 ∧
    session_get failSixAttempts = .error .retriesExhausted ∧
    session_get notFoundAttempts = .error (.httpStatus 404) := by
  have h2 : ∀ j, j < 2 → retryableAttempt (failTwiceAttempts j) := by
    intro j hj
    left
    simp [failTwiceAttempts, hj]
  have h6 : ∀ j, j < 6 → retryableAttempt (failSixAttempts j) := by
    intro j hj
    right
    exact ⟨503, body200, by simp [failSixAttempts, hj], by decide⟩
  refine ⟨h2, rfl, (retry_bound_spec.1 failTwiceAttempts 2 body200 h2 rfl).1 (by omega),
    h6, rfl, (retry_bound_spec.1 failSixAttempts 6 body200 h6 rfl).2 (by omega),
    (retry_bound_spec.2.1 notFoundAttempts notFoundAttempts 404 body200 (by omega)
      (by decide) rfl rfl).1⟩

/-- The first n+1 pages are the first n pages plus page n. -/
theorem joinUpTo_succ (src : Nat → FetchOutcome) (n : Nat) :
    joinUpTo src (n + 1) = joinUpTo src n ++ awardsAt src n := by
  rw [joinUpTo, joinUpTo, List.range_succ, List.map_append, List.flatten_append]
  simp

theorem fetch_go_reach (src : Nat → FetchOutcome) :
    ∀ (d m rem : Nat) (acc : List RawAward), d < rem →
      (∀ i, m ≤ i → i < m + d → fullCleanAt src i) →
      fetch_all_go src rem (1 + 25 * m) acc =
        fetch_all_go src (rem - d) (1 + 25 * (m + d))
          (acc ++ ((List.range' m d).map (awardsAt src)).flatten) := by
  intro d
  induction d with
  | zero =>
    intro m rem acc _ _
    simp [List.range']
  | succ d ih =>
    intro m rem acc hd hfc
    obtain ⟨hpage, hlen⟩ := hfc m le_rfl (by omega)
    obtain ⟨r, rfl⟩ : ∃ r, rem = r + 2 := ⟨rem - 2, by omega⟩
    have hne : awardsAt src m ≠ [] := by
      intro h0
      rw [h0] at hlen
      simp at hlen
    have hnlt : ¬ (awardsAt src m).length < 25 := by omega
    have hstep : fetch_all_go src (r + 2) (1 + 25 * m) acc =
        fetch_all_go src (r + 1) (1 + 25 * (m + 1)) (acc ++ awardsAt src m) := by
      rw [fetch_all_go, hpage]
      simp [hne, hnlt]
      rw [show 1 + 25 * m + 25 = 1 + 25 * (m + 1) by ring]
    rw [hstep,
      ih (m + 1) (r + 1) (acc ++ awardsAt src m) (by omega)
        (fun i h1 h2 => hfc i (by omega) (by omega)),
      show (r + 1) - d = (r + 2) - (d + 1) by omega,
      show (m + 1) + d = m + (d + 1) by omega,
      List.range'_succ]
    simp

/-- C3: if pages before k are full and clean and page k returns zero or fewer
than 25 awards, fetch_all stops there and returns every award accumulated up
to and including that page; a source that always returns full clean pages
makes fetch_all stop after exactly the 200-page ceiling, from offset 1 in
steps of 25, with 200 * 25 accumulated awards. -/
theorem paginator_termination (src : Nat → FetchOutcome) :
    (∀ k, k < 200 → (∀ i, i < k → fullCleanAt src i) →
      src (1 + 25 * k) = .page (awardsAt src k) [] →
      (awardsAt src k).length < 25 →
      fetch_all src = .ok (joinUpTo src (k + 1))) ∧
    ((∀ i, i < 200 → fullCleanAt src i) →
      fetch_all src = .ok (joinUpTo src 200) ∧ (joinUpTo src 200).length = 200 * 25) := by
  constructor
  · intro k hk hpre hpage hshort
    have hreach := fetch_go_reach src k 0 200 [] (by omega)
      (fun i h0 hi => hpre i (by simpa using hi))
    rw [show (1:Nat) + 25 * 0 = 1 by norm_num, Nat.zero_add, List.nil_append,
      ← List.range_eq_range', ← joinUpTo] at hreach
    have hlast : ∀ rem', fetch_all_go src rem' (1 + 25 * k) (joinUpTo src k) =
        .ok (joinUpTo src (k + 1)) := by
      intro rem'
      have hj := joinUpTo_succ src k
      by_cases ha : awardsAt src k = []
      · rw [ha, List.append_nil] at hj
        cases rem' with
        | zero => rw [fetch_all_go]; simp only [fetch_last]; rw [hpage]; simp [ha, hj]
        | succ r' =>
          cases r' with
          | zero => rw [fetch_all_go]; simp only [fetch_last]; rw [hpage]; simp [ha, hj]
          | succ r => rw [fetch_all_go, hpage]; simp [ha, hj]
      · cases rem' with
        | zero => rw [fetch_all_go]; simp only [fetch_last]; rw [hpage]; simp [ha, hj]
        | succ r' =>
          cases r' with
          | zero => rw [fetch_all_go]; simp only [fetch_last]; rw [hpage]; simp [ha, hj]
          | succ r => rw [fetch_all_go, hpage]; simp [ha, hshort, hj]
    rw [fetch_all, hreach, hlast]
  · intro hall
    have hreach := fetch_go_reach src 199 0 200 [] (by omega)
      (fun i h0 hi => hall i (by omega))
    rw [show (1:Nat) + 25 * 0 = 1 by norm_num, Nat.zero_add, List.nil_append,
      ← List.range_eq_range', ← joinUpTo] at hreach
    obtain ⟨hpage, hlen⟩ := hall 199 (by omega)
    have hne : awardsAt src 199 ≠ [] := by
      intro h0
      rw [h0] at hlen
      simp at hlen
    constructor
    · rw [fetch_all, hreach, show 200 - 199 = 1 by norm_num, fetch_all_go]
      simp only [fetch_last]
      rw [hpage]
      simp [hne, ← joinUpTo_succ]
    · rw [joinUpTo, List.length_flatten, List.map_map]
      simp only [Function.comp_def]
      rw [List.map_congr_left
        (g := fun _ => (25:Nat)) (fun i hi => (hall i (List.mem_range.mp hi)).2)]
      rw [List.map_const', List.sum_replicate, List.length_range, smul_eq_mul]

theorem paginator_termination_witness :
    (∀ i, i < 200 → fullCleanAt fullSrc i) ∧
    fetch_all fullSrc = .ok (joinUpTo fullSrc 200) ∧
    (joinUpTo fullSrc 200).length = 200 * 25 ∧
    (awardsAt shortSrc 0).length < 25 ∧
    fetch_all shortSrc = .ok (joinUpTo shortSrc 1) := by
  have hfull : ∀ i, i < 200 → fullCleanAt fullSrc i := by
    intro i _
    exact ⟨rfl, by simp [awardsAt, fullSrc]⟩
  obtain ⟨h1, h2⟩ := (paginator_termination fullSrc).2 hfull
  refine ⟨hfull, h1, h2, by simp [awardsAt, shortSrc, demoRow], ?_⟩
  exact (paginator_termination shortSrc).1 0 (by omega)
    (fun i hi => absurd hi (by omega)) rfl (by simp [awardsAt, shortSrc, demoRow])

/-- C4: a response that parses but carries notifications drives fetch_all to
the protocol error made of the joined notification codes and messages (for
any awards in the same response and wherever in the pagination it occurs),
and the transport-level retry loop never retries a parsed response: a
non-forcelist status below 400 is returned at once, whatever later attempts
would do. -/
theorem notification_short_circuit :
    (∀ (src : Nat → FetchOutcome) (k : Nat) (awards : List RawAward)
        (ns : List ServiceNote),
      k < 200 → (∀ i, i < k → fullCleanAt src i) →
      src (1 + 25 * k) = .page awards ns → ns ≠ [] →
      fetch_all src = .error (.protocol (joinCodes ns) (joinMsgs ns))) ∧
    (∀ (attempts attempts' : Nat → Attempt) (st : Nat) (body : ApiBody),
      st < 400 → st ∉ status_forcelist →
      attempts 0 = .http st body → attempts' 0 = attempts 0 →
      session_get attempts = .ok body ∧ session_get attempts' = .ok body) := by
  constructor
  · intro src k awards ns hk hpre hpage hns
    have hreach := fetch_go_reach src k 0 200 [] (by omega)
      (fun i h0 hi => hpre i (by simpa using hi))
    rw [show (1:Nat) + 25 * 0 = 1 by norm_num, Nat.zero_add, List.nil_append,
      ← List.range_eq_range', ← joinUpTo] at hreach
    have hstop : ∀ rem' acc, fetch_all_go src rem' (1 + 25 * k) acc =
        .error (.protocol (joinCodes ns) (joinMsgs ns)) := by
      intro rem' acc
      cases rem' with
      | zero => rw [fetch_all_go]; simp only [fetch_last]; rw [hpage]; simp [hns]
      | succ r' =>
        cases r' with
        | zero => rw [fetch_all_go]; simp only [fetch_last]; rw [hpage]; simp [hns]
        | succ r => rw [fetch_all_go, hpage]; simp [hns]
    rw [fetch_all, hreach, hstop]
  · intro attempts attempts' st body hlt hnf h0 h0'
    have hone : ∀ f : Nat → Attempt, f 0 = .http st body → session_get f = .ok body := by
      intro f hf
      rw [session_get, retry_go, hf]
      simp [hnf, show ¬ 400 ≤ st by omega]
    exact ⟨hone attempts h0, hone attempts' (h0'.trans h0)⟩

theorem notification_short_circuit_witness :
    noteSrc (1 + 25 * 0) = .page [demoRow] [⟨"INFO", "scheduled maintenance"⟩] ∧
    fetch_all noteSrc = .error (.protocol "INFO" "scheduled maintenance") ∧
    session_get okAttempts = .ok body200 := by
  refine ⟨rfl, ?_, ?_⟩
  · exact notification_short_circuit.1 noteSrc 0 [demoRow]
      [⟨"INFO", "scheduled maintenance"⟩] (by omega)
      (fun i hi => absurd hi (by omega)) rfl (by simp)
  · exact (notification_short_circuit.2 okAttempts okAttempts 200 body200 (by omega)
      (by decide) rfl rfl).1

theorem runQueries_ok_log (fetch : Params → Except PagError (List RawAward)) :
    ∀ (qs : List Params) (rows : List RawAward),
      (runQueries fetch qs).1 = .ok rows → (runQueries fetch qs).2 = qs := by
  intro qs
  induction qs with
  | nil => intro rows _; rfl
  | cons p ps ih =>
    intro rows h
    cases hf : fetch p with
    | error e =>
      rw [runQueries, hf] at h
      simp at h
    | ok rs =>
      rw [runQueries, hf] at h ⊢
      simp only at h ⊢
      cases hrest : (runQueries fetch ps).1 with
      | error e => rw [hrest] at h; simp [Except.map] at h
      | ok rows2 => simp [ih rows2 hrest]

theorem runQueries_prefix_error (fetch : Params → Except PagError (List RawAward))
    (q : Params) (e : PagError) :
    ∀ qs1 qs2, (∀ p ∈ qs1, ∃ rs, fetch p = .ok rs) → fetch q = .error e →
      runQueries fetch (qs1 ++ q :: qs2) = (.error e, qs1 ++ [q]) := by
  intro qs1
  induction qs1 with
  | nil =>
    intro qs2 _ hq
    simp [runQueries, hq]
  | cons p ps ih =>
    intro qs2 hok hq
    obtain ⟨rs, hp⟩ := hok p (by simp)
    have hrec := ih qs2 (fun x hx => hok x (by simp [hx])) hq
    rw [List.cons_append, runQueries, hp]
    simp [hrec, Except.map]

theorem runQueries_const_empty (qs : List Params) :
    runQueries emptyFetch qs = (.ok [], qs) := by
  induction qs with
  | nil => rfl
  | cons p ps ih => simp [runQueries, emptyFetch, ih, Except.map]

theorem runQueries_log_cons (fetch : Params → Except PagError (List RawAward))
    (p : Params) (ps : List Params) :
    ∃ t, (runQueries fetch (p :: ps)).2 = p :: t := by
  cases hf : fetch p with
  | error e => exact ⟨[], by simp [runQueries, hf]⟩
  | ok rs => exact ⟨(runQueries fetch ps).2, by simp [runQueries, hf]⟩

theorem fallback_disjoint (sd ed : String) :
    ∀ q ∈ fallbackQueries sd ed, q ∉ queries123 sd ed := by
  intro q hq hq'
  simp only [fallbackQueries, List.mem_map] at hq
  obtain ⟨org, _, rfl⟩ := hq
  simp [queries123] at hq'

/-- C6: the fallback strategy set runs exactly when phases 1-3 together
contributed zero rows: a fallback query is among the issued queries iff the
accumulated rows of the first three phases are empty. -/
theorem fallback_iff_zero_rows (fetch : Params → Except PagError (List RawAward))
    (sd ed : String) (rows : List RawAward)
    (hq : (runQueries fetch (queries123 sd ed)).1 = .ok rows) :
    (∃ q ∈ fallbackQueries sd ed, q ∈ (search_orgs fetch sd ed).2) ↔ rows = [] := by
  have hlog := runQueries_ok_log fetch (queries123 sd ed) rows hq
  constructor
  · rintro ⟨q, hqf, hqi⟩
    by_contra hne
    have hiss : (search_orgs fetch sd ed).2 = queries123 sd ed := by
      simp only [search_orgs]
      rw [hq]
      simp [List.isEmpty_iff, hne, hlog]
    rw [hiss] at hqi
    exact fallback_disjoint sd ed q hqf hqi
  · rintro rfl
    have hiss : (search_orgs fetch sd ed).2 =
        queries123 sd ed ++ (runQueries fetch (fallbackQueries sd ed)).2 := by
      simp only [search_orgs]
      rw [hq]
      simp [hlog]
    have hsplit : fallbackQueries sd ed =
        Params.awardeeStart "Corewell Health" sd ed ::
          (["Spectrum Health", "Beaumont Health", "William Beaumont Hospital",
            "Helen DeVos Children\x27s Hospital", "Butterworth Hospital",
            "Lakeland Hospital", "Blodgett Hospital"].map
              (fun org => Params.awardeeStart org sd ed)) := rfl
    obtain ⟨t, ht⟩ := runQueries_log_cons fetch (Params.awardeeStart "Corewell Health" sd ed)
      (["Spectrum Health", "Beaumont Health", "William Beaumont Hospital",
        "Helen DeVos Children\x27s Hospital", "Butterworth Hospital",
        "Lakeland Hospital", "Blodgett Hospital"].map
          (fun org => Params.awardeeStart org sd ed))
    refine ⟨Params.awardeeStart "Corewell Health" sd ed, ?_, ?_⟩
    · rw [hsplit]; exact List.mem_cons_self _ _
    · rw [hiss, hsplit, ht]
      exact List.mem_append_right _ (List.mem_cons_self _ _)

theorem fallback_iff_zero_rows_witness :
    (runQueries oneRowFetch (queries123 "01/01/2005" "01/01/2025")).1 =
      .ok (List.replicate 25 demoRow) ∧
    ((∃ q ∈ fallbackQueries "01/01/2005" "01/01/2025",
        q ∈ (search_orgs oneRowFetch "01/01/2005" "01/01/2025").2) ↔
      List.replicate 25 demoRow = ([] : List RawAward)) :=
  ⟨rfl, fallback_iff_zero_rows oneRowFetch "01/01/2005" "01/01/2025"
    (List.replicate 25 demoRow) rfl⟩

/-- C1 counterexample: with a fetcher whose first planned strategy fails at
the transport layer while the second planned strategy would succeed with one
award, search_orgs propagates the error, issues only the first query, and
returns none of the successful strategies' rows — against the claim that
remaining strategies still run and their rows are returned. -/
theorem aggregator_abort_counterexample :
    (search_orgs (fetchVia cxSrc) "01/01/2005" "01/01/2025").1 = .error .transport ∧
    (search_orgs (fetchVia cxSrc) "01/01/2005" "01/01/2025").2 =
      [Params.awardee "Corewell Health" "01/01/2005" "01/01/2025"] ∧
    Params.awardee "Spectrum Health" "01/01/2005" "01/01/2025" ∈
      queries123 "01/01/2005" "01/01/2025" ∧
    fetchVia cxSrc (Params.awardee "Spectrum Health" "01/01/2005" "01/01/2025") =
      .ok [demoRow] := by
  refine ⟨rfl, rfl, ?_, rfl⟩
  simp [queries123, ORG_CANDIDATES]

/-- C1 (amended): when the first failing planned query q fails (all planned
queries before it succeed), search_orgs aborts with q's error, the queries
after q are never issued and the outcome is independent of the fetcher's
behavior on them; the failed run is surfaced distinctly from a successful run
that found zero matching awards. -/
theorem aggregator_abort_on_first_failure
    (fetch fetch' : Params → Except PagError (List RawAward)) (sd ed : String)
    (qs1 qs2 : List Params) (q : Params) (e : PagError)
    (hplan : queries123 sd ed = qs1 ++ q :: qs2)
    (hok : ∀ p ∈ qs1, ∃ rs, fetch p = .ok rs)
    (hfail : fetch q = .error e)
    (hagree : ∀ p ∈ qs1, fetch' p = fetch p)
    (hq' : fetch' q = .error e) :
    (search_orgs fetch sd ed).1 = .error e ∧
    (search_orgs fetch sd ed).2 = qs1 ++ [q] ∧
    (search_orgs fetch' sd ed).1 = .error e ∧
    mainOutcome fetch sd ed ≠ mainOutcome emptyFetch sd ed ∧
    mainOutcome emptyFetch sd ed = "No NSF awards matched" := by
  have hrun := runQueries_prefix_error fetch q e qs1 qs2 hok hfail
  have hok' : ∀ p ∈ qs1, ∃ rs, fetch' p = .ok rs := by
    intro p hp
    obtain ⟨rs, h⟩ := hok p hp
    exact ⟨rs, by rw [hagree p hp, h]⟩
  have hrun' := runQueries_prefix_error fetch' q e qs1 qs2 hok' hq'
  have h1 : (search_orgs fetch sd ed).1 = .error e := by
    simp only [search_orgs, hplan, hrun]
  have h2 : (search_orgs fetch sd ed).2 = qs1 ++ [q] := by
    simp only [search_orgs, hplan, hrun]
  have h1' : (search_orgs fetch' sd ed).1 = .error e := by
    simp only [search_orgs, hplan, hrun']
  have hempty : (search_orgs emptyFetch sd ed).1 = .ok [] := by
    simp only [search_orgs, runQueries_const_empty]
    simp [Except.map]
  have hmo : mainOutcome emptyFetch sd ed = "No NSF awards matched" := by
    rw [mainOutcome, hempty]
    simp [to_df]
  refine ⟨h1, h2, h1', ?_, hmo⟩
  rw [hmo, mainOutcome, h1]
  cases e with
  | transport =>
    show "HTTP error" ≠ "No NSF awards matched"
    decide
  | protocol c m =>
    show "API reported an error" ≠ "No NSF awards matched"
    decide

theorem aggregator_abort_on_first_failure_witness :
    (queries123 "01/01/2005" "01/01/2025" =
      [] ++ Params.awardee "Corewell Health" "01/01/2005" "01/01/2025" ::
        (queries123 "01/01/2005" "01/01/2025").tail) ∧
    fetchVia cxSrc (Params.awardee "Corewell Health" "01/01/2005" "01/01/2025") =
      .error .transport ∧
    (search_orgs (fetchVia cxSrc) "01/01/2005" "01/01/2025").1 = .error .transport := by
  refine ⟨rfl, rfl, ?_⟩
  exact (aggregator_abort_on_first_failure (fetchVia cxSrc) (fetchVia cxSrc)
    "01/01/2005" "01/01/2025" [] ((queries123 "01/01/2005" "01/01/2025").tail)
    (Params.awardee "Corewell Health" "01/01/2005" "01/01/2025") PagError.transport rfl
    (by simp) rfl (by simp) rfl).1

theorem dedup_countP (k : Option Jv) :
    ∀ (rows : List RawAward) (seen : List (Option Jv)),
      (drop_duplicates_go seen rows).countP (fun r => rowId r == k) =
        if k ∈ seen then 0
        else if rows.any (fun r => rowId r == k) then 1 else 0 := by
  intro rows
  induction rows with
  | nil =>
    intro seen
    simp [drop_duplicates_go]
  | cons r rs ih =>
    intro seen
    by_cases hmem : rowId r ∈ seen
    · rw [drop_duplicates_go, if_pos hmem, ih seen]
      by_cases hk : k ∈ seen
      · simp [hk]
      · have hrk : (rowId r == k) = false := by
          rw [beq_eq_false_iff_ne]
          intro h
          exact hk (h ▸ hmem)
        simp [hk, List.any_cons, hrk]
    · rw [drop_duplicates_go, if_neg hmem, List.countP_cons, ih (rowId r :: seen)]
      by_cases hrk : rowId r = k
      · subst hrk
        simp [hmem, List.any_cons]
      · have hbe : (rowId r == k) = false := by
          rw [beq_eq_false_iff_ne]
          exact hrk
        have hks : (k ∈ rowId r :: seen) ↔ k ∈ seen := by
          rw [List.mem_cons]
          constructor
          · rintro (h | h)
            · exact absurd h.symm hrk
            · exact h
          · exact Or.inr
        simp [hbe, hks, List.any_cons]

theorem dedup_first :
    ∀ (rows : List RawAward) (seen : List (Option Jv)) (r : RawAward),
      r ∈ drop_duplicates_go seen rows →
      rowId r ∉ seen ∧ rows.find? (fun x => rowId x == rowId r) = some r := by
  intro rows
  induction rows with
  | nil =>
    intro seen r hr
    simp [drop_duplicates_go] at hr
  | cons x rs ih =>
    intro seen r hr
    by_cases hmem : rowId x ∈ seen
    · rw [drop_duplicates_go, if_pos hmem] at hr
      obtain ⟨hns, hfind⟩ := ih seen r hr
      refine ⟨hns, ?_⟩
      have hpred : ¬ ((fun y => rowId y == rowId r) x = true) := by
        simp only [beq_iff_eq]
        intro h
        exact hns (h ▸ hmem)
      exact (List.find?_cons_of_neg rs hpred).trans hfind
    · rw [drop_duplicates_go, if_neg hmem] at hr
      rcases List.mem_cons.mp hr with rfl | hr2
      · exact ⟨hmem, List.find?_cons_of_pos rs (by simp)⟩
      · obtain ⟨hns, hfind⟩ := ih (rowId x :: seen) r hr2
        have hne : rowId x ≠ rowId r := by
          intro h
          exact hns (h ▸ List.mem_cons_self _ _)
        have hpred : ¬ ((fun y => rowId y == rowId r) x = true) := by
          simp only [beq_iff_eq]
          exact hne
        refine ⟨fun hs => hns (List.mem_cons_of_mem _ hs), ?_⟩
        exact (List.find?_cons_of_neg rs hpred).trans hfind

theorem mem_foldl_insertKey :
    ∀ (ks acc : List String) (c : String),
      c ∈ ks.foldl insertKey acc ↔ c ∈ acc ∨ c ∈ ks := by
  intro ks
  induction ks with
  | nil =>
    intro acc c
    simp
  | cons k ks ih =>
    intro acc c
    rw [List.foldl_cons, ih]
    by_cases hk : k ∈ acc
    · simp only [insertKey, if_pos hk, List.mem_cons]
      constructor
      · rintro (h | h)
        · exact Or.inl h
        · exact Or.inr (Or.inr h)
      · rintro (h | h | h)
        · exact Or.inl h
        · exact Or.inl (by rw [h]; exact hk)
        · exact Or.inr h
    · simp only [insertKey, if_neg hk, List.mem_cons, List.mem_append,
        List.mem_singleton]
      constructor
      · rintro ((h | h) | h)
        · exact Or.inl h
        · rcases h with h | h
          · exact Or.inr (Or.inl h)
          · exact absurd h (List.not_mem_nil c)
        · exact Or.inr (Or.inr h)
      · rintro (h | h | h)
        · exact Or.inl (Or.inl h)
        · exact Or.inl (Or.inr (Or.inl h))
        · exact Or.inr h

theorem mem_schema_aux :
    ∀ (rows : List RawAward) (acc : List String) (c : String),
      c ∈ rows.foldl (fun a r => (keys r).foldl insertKey a) acc ↔
        c ∈ acc ∨ ∃ r ∈ rows, c ∈ keys r := by
  intro rows
  induction rows with
  | nil =>
    intro acc c
    simp
  | cons r rs ih =>
    intro acc c
    rw [List.foldl_cons, ih, mem_foldl_insertKey]
    constructor
    · rintro ((h | h) | ⟨x, hx, hcx⟩)
      · exact Or.inl h
      · exact Or.inr ⟨r, by simp, h⟩
      · exact Or.inr ⟨x, by simp [hx], hcx⟩
    · rintro (h | ⟨x, hx, hcx⟩)
      · exact Or.inl (Or.inl h)
      · rcases List.mem_cons.mp hx with rfl | hx2
        · exact Or.inl (Or.inr hcx)
        · exact Or.inr ⟨x, hx2, hcx⟩

theorem mem_schema (rows : List RawAward) (c : String) :
    c ∈ schema rows ↔ ∃ r ∈ rows, c ∈ keys r := by
  rw [schema, mem_schema_aux]
  simp

theorem lookupField_normRow (cols : List String) (r : RawAward) (c : String) :
    lookupField (normRow cols r) c = if c ∈ cols then some (normCell r c) else none := by
  induction cols with
  | nil => simp [normRow, lookupField]
  | cons c0 cs ih =>
    by_cases h : c0 = c
    · subst h
      simp only [normRow, List.map_cons, lookupField]
      rw [List.find?_cons_of_pos _ (by simp)]
      simp
    · simp only [normRow, List.map_cons, lookupField] at ih ⊢
      rw [List.find?_cons_of_neg _ (by simp [h]), ih]
      have : (c ∈ c0 :: cs) ↔ c ∈ cs := by
        rw [List.mem_cons]
        constructor
        · rintro (h2 | h2)
          · exact absurd h2.symm h
          · exact h2
        · exact Or.inr
      by_cases hc : c ∈ cs
      · rw [if_pos hc, if_pos (this.mpr hc)]
      · rw [if_neg hc, if_neg (fun h2 => hc (this.mp h2))]

theorem id_mem_outColumns (rows : List RawAward) (r : RawAward)
    (hr : r ∈ rows) (hid : "id" ∈ keys r) : "id" ∈ outColumns rows := by
  have hs : "id" ∈ schema rows := (mem_schema rows "id").mpr ⟨r, hr, hid⟩
  have hf : "id" ∈ OUTPUT_COLS.filter (fun c => c ∈ schema rows) := by
    rw [List.mem_filter]
    exact ⟨by decide, by simpa using hs⟩
  simp only [outColumns]
  rw [if_neg ?hc]
  case hc =>
    intro hempty
    rw [List.isEmpty_iff] at hempty
    rw [hempty] at hf
    exact List.not_mem_nil _ hf
  exact hf

theorem lookupField_id_isSome (r : RawAward) (hid : "id" ∈ keys r) :
    ∃ v, lookupField r "id" = some v := by
  rw [keys] at hid
  obtain ⟨p, hp, hp1⟩ := List.mem_map.mp hid
  have hsome : (r.find? (fun q => q.1 == "id")).isSome := by
    rw [List.find?_isSome]
    exact ⟨p, hp, by simp [hp1]⟩
  obtain ⟨q, hq⟩ := Option.isSome_iff_exists.mp hsome
  exact ⟨q.2, by rw [lookupField, hq]; rfl⟩

theorem rowId_normRow (rows : List RawAward) (r : RawAward)
    (hr : r ∈ rows) (hid : "id" ∈ keys r) :
    rowId (normRow (outColumns rows) r) = rowId r := by
  have hmem := id_mem_outColumns rows r hr hid
  rw [rowId, lookupField_normRow, if_pos hmem]
  obtain ⟨v, hv⟩ := lookupField_id_isSome r hid
  rw [normCell, if_neg (by decide), cellValue, rowId, hv]
  rfl

/-- C2: on any input whose rows carry an id, the final to_df table holds each
identifier exactly once (a row count of one for present ids, zero otherwise),
and every surviving row is the normalization of the first occurrence of its
identifier in the concatenated strategy-order input. -/
theorem dedup_unique_first_occurrence (rows : List RawAward)
    (hid : ∀ r ∈ rows, "id" ∈ keys r) :
    (∀ k : Jv, (to_df rows).countP (fun r => rowId r == some k) =
        if rows.any (fun r => rowId r == some k) then 1 else 0) ∧
    (∀ s ∈ to_df rows, ∃ r, rows.find? (fun x => rowId x == rowId s) = some r ∧
        s = normRow (outColumns rows) r ∧ rowId s = rowId r) := by
  by_cases hnil : rows = []
  · subst hnil
    constructor
    · intro k
      simp [to_df]
    · intro s hs
      simp [to_df] at hs
  · have hne : rows.isEmpty = false := by
      rw [Bool.eq_false_iff]
      intro h
      exact hnil (List.isEmpty_iff.mp h)
    have hdf : to_df rows =
        (drop_duplicates rows).map (fun r => normRow (outColumns rows) r) := by
      rw [to_df, hne]
      simp
    have hsub : ∀ d ∈ drop_duplicates rows, d ∈ rows := by
      intro d hd
      exact List.mem_of_find?_eq_some (dedup_first rows [] d hd).2
    have hpres : ∀ d ∈ drop_duplicates rows,
        rowId (normRow (outColumns rows) d) = rowId d := by
      intro d hd
      exact rowId_normRow rows d (hsub d hd) (hid d (hsub d hd))
    constructor
    · intro k
      rw [hdf, List.countP_map]
      rw [List.countP_congr (fun d hd => by
        simp only [Function.comp_def]
        rw [hpres d hd])]
      have := dedup_countP (some k) rows []
      simpa using this
    · intro s hs
      rw [hdf] at hs
      obtain ⟨d, hd, rfl⟩ := List.mem_map.mp hs
      obtain ⟨-, hfind⟩ := dedup_first rows [] d hd
      refine ⟨d, ?_, rfl, hpres d hd⟩
      simp only [hpres d hd]
      exact hfind

theorem dedup_unique_first_occurrence_witness :
    (∀ r ∈ dupRows, "id" ∈ keys r) ∧
    (to_df dupRows).countP (fun r => rowId r == some (Jv.num 1)) = 1 := by
  have hid : ∀ r ∈ dupRows, "id" ∈ keys r := by decide
  refine ⟨hid, ?_⟩
  rw [(dedup_unique_first_occurrence dupRows hid).1 (Jv.num 1)]
  rfl
